import Mathlib

/-!
Shallow embedding of `src/send_btc.py`, a script that builds, signs and
broadcasts one batch Bitcoin transaction paying a list of recipients from a
single P2WPKH funding key.

Python strings are modelled as lists of characters (`PyStr`); Python integers
as `Int`. Cryptographic operations (WIF decoding, public-key derivation,
bech32 encoding, ECDSA signing and verification) and the bitcoinlib
transaction serializer are opaque in the source (library calls), so they are
abstracted as parameters: a `decode` oracle for key/address derivation, a
`verifyOk : Bool` for `t.verify()`, and the already-computed integer `fee`
for `int(tx_size * fee_rate)` (lines 196-198, whose float arithmetic is not
modelled here). Network effects are made explicit: the pipeline returns,
besides its result, the list of network actions it performed, so that
"broadcast never happens" claims are statements about that trace.
-/

namespace SendBtc

/-- Python `str`, modelled as a list of characters. -/
abbrev PyStr := List Char

/-- Python `s.startswith(p)`. -/
def pyStartsWith (s p : PyStr) : Bool := p.isPrefixOf s

/-- Python `s.upper()` (ASCII range, which is all the source compares). -/
def pyUpper (s : PyStr) : PyStr := s.map Char.toUpper

/-- The mainnet P2WPKH address marker `"bc1q"` checked throughout the source. -/
def bc1q : PyStr := ['b', 'c', '1', 'q']

/-- One entry of the JSON array returned by `GET /address/{addr}/utxo`
(`txid`, `vout`, `value`); the `status` field is only logged by the source and
is not modelled. -/
structure Utxo where
  txid : PyStr
  vout : Int
  value : Int
deriving DecidableEq, Repr

/-- One transfer record `{'address': ..., 'amount': ...}` as assembled in
`main` (lines 268-275); `address` is the stripped cell string and `amount`
the parsed integer. -/
structure Recipient where
  address : PyStr
  amount : Int
deriving DecidableEq, Repr

/-- The `ValueError`s raised while validating rows in `read_excel_data`
(lines 83-99); each carries the 1-based row number from the message. -/
inductive RecipientError where
  | badAddress (row : Nat) (address : PyStr)
  | nonPositiveAmount (row : Nat) (amount : Int)
  | belowDust (row : Nat) (amount : Int)
deriving DecidableEq, Repr

/-- The per-row validation loop of `read_excel_data` (lines 83-99), over rows
whose address cell has already been read as a stripped string and whose
amount cell has already been parsed as an integer. `idx` is the 0-based row
index (`df.iterrows()`); messages use `idx+1`. The first offending row
aborts the whole batch, exactly as the `raise` does. -/
def validateRows (idx : Nat) : List Recipient → Except RecipientError Unit
  | [] => .ok ()
  | r :: rs =>
    if pyStartsWith r.address bc1q then
      if r.amount ≤ 0 then .error (.nonPositiveAmount (idx + 1) r.amount)
      else if r.amount < 546 then .error (.belowDust (idx + 1) r.amount)
      else validateRows (idx + 1) rs
    else .error (.badAddress (idx + 1) r.address)

/-- The validation performed by `read_excel_data` on the full record list. -/
def read_excel_data (records : List Recipient) : Except RecipientError Unit :=
  validateRows 0 records

/-- The UTXO filter of `get_utxos_from_api` (line 125):
`[utxo for utxo in utxos if utxo['value'] >= min_utxo]`. -/
def filterUtxos (utxos : List Utxo) (minUtxo : Int) : List Utxo :=
  utxos.filter (fun u => minUtxo ≤ u.value)

/-- The `ValueError`s raised inside `send_batch_transaction`. -/
inductive TxError where
  | badWalletAddress
  | noSpendableFunds
  | badOutputAddress (address : PyStr)
  | verificationFailed
  | broadcastFailed (body : PyStr)
deriving DecidableEq, Repr

/-- The draft transaction assembled by lines 165-203: consumed inputs,
ordered outputs `(amount, address)` and the fee snapshot. -/
structure DraftTx where
  inputs : List Utxo
  outputs : List (Int × PyStr)
  fee : Int
deriving DecidableEq, Repr

/-- The output-building loop (lines 185-194): each record's address must
start with `bc1q`, otherwise the loop raises at that record; on success the
outputs are `(amount, address)` in record order. -/
def checkOutputs : List Recipient → Except TxError (List (Int × PyStr))
  | [] => .ok []
  | r :: rs =>
    if pyStartsWith r.address bc1q then
      match checkOutputs rs with
      | .error e => .error e
      | .ok outs => .ok ((r.amount, r.address) :: outs)
    else .error (.badOutputAddress r.address)

/-- Transaction assembly, lines 160-203 of `send_batch_transaction`: the
empty-UTXO check, one input per (already filtered) UTXO in provider order,
one output per record in order, then `change = total_input - total_output -
fee` with a change output appended exactly when `change > 0`. `fee` is the
integer computed at line 198 (`int(tx_size * fee_rate)`), taken here as a
parameter because its size/float arithmetic lives in bitcoinlib and IEEE
doubles. Note the source has no branch for `change < 0`. -/
def buildTx (walletAddress : PyStr) (utxos : List Utxo) (records : List Recipient)
    (fee : Int) : Except TxError DraftTx :=
  if utxos.isEmpty then .error .noSpendableFunds
  else
    match checkOutputs records with
    | .error e => .error e
    | .ok outs =>
      let totalInput := (utxos.map Utxo.value).sum
      let totalOutput := (records.map Recipient.amount).sum
      let change := totalInput - totalOutput - fee
      .ok ⟨utxos, if 0 < change then outs ++ [(change, walletAddress)] else outs, fee⟩

/-- A network call made by `send_batch_transaction`: the UTXO fetch
(line 121, via `get_utxos_from_api`) or the broadcast POST (line 231). -/
inductive NetAction where
  | fetchUtxos (address : PyStr)
  | broadcast (txHex : PyStr)
deriving DecidableEq, Repr

/-- An HTTP response from the provider: whether `status_code == 200`, and the
body text. -/
structure HttpResp where
  ok : Bool
  body : PyStr
deriving DecidableEq, Repr

/-- `send_batch_transaction` (lines 140-246). Parameters abstract the opaque
collaborators: `walletAddress` is the address derived from the key at lines
151-154; `providerUtxos` the raw JSON list of the fetch; `fee` the integer of
line 198; `verifyOk` the result of `t.verify()`; `txHex` the serialized raw
transaction; `confirmAnswer` the `input()` reply; `broadcastResp` the
response to the POST. Returns the Python result (`txid`, or `None` when the
user declines) or the raised error, paired with the trace of network calls
performed. -/
def send_batch_transaction (walletAddress : PyStr) (providerUtxos : List Utxo)
    (minUtxo : Int) (records : List Recipient) (fee : Int) (verifyOk : Bool)
    (txHex : PyStr) (confirmAnswer : PyStr) (broadcastResp : HttpResp) :
    Except TxError (Option PyStr) × List NetAction :=
  if pyStartsWith walletAddress bc1q then
    let fetched := [NetAction.fetchUtxos walletAddress]
    match buildTx walletAddress (filterUtxos providerUtxos minUtxo) records fee with
    | .error e => (.error e, fetched)
    | .ok _draft =>
      if verifyOk then
        if pyUpper confirmAnswer = ['Y'] then
          if broadcastResp.ok then
            (.ok (some broadcastResp.body), fetched ++ [NetAction.broadcast txHex])
          else
            (.error (.broadcastFailed broadcastResp.body), fetched ++ [NetAction.broadcast txHex])
        else (.ok none, fetched)
      else (.error .verificationFailed, fetched)
  else (.error .badWalletAddress, [])

/-- The WIF pre-check of `create_wallet_from_wif` (line 39):
`wif_key.startswith(('K', 'L', '5'))`. -/
def wifPrecheck (wif : PyStr) : Bool :=
  pyStartsWith wif ['K'] || pyStartsWith wif ['L'] || pyStartsWith wif ['5']

/-- Errors raised by `create_wallet_from_wif` (lines 31-68). -/
inductive WalletError where
  | invalidWifFormat
  | keyDecodeFailed
  | notSegwitAddress
deriving DecidableEq, Repr

/-- `create_wallet_from_wif` (lines 31-68): the first-character pre-check, then
the opaque bitcoinlib pipeline `Key(wif) → public_hex → hash160 → bech32`,
abstracted as a `decode` oracle returning the derived address (or `none` when
`Key` raises), then the `bc1q` postcondition on the produced address. -/
def create_wallet_from_wif (decode : PyStr → Option PyStr) (wif : PyStr) :
    Except WalletError PyStr :=
  if wifPrecheck wif then
    match decode wif with
    | none => .error .keyDecodeFailed
    | some address =>
      if pyStartsWith address bc1q then .ok address else .error .notSegwitAddress
  else .error .invalidWifFormat

deriving instance DecidableEq for Except

/-! ## Helper lemmas -/

/-- A successful output pass returns exactly the `(amount, address)` pairs of
the records, in order. -/
theorem checkOutputs_eq_map {records : List Recipient} {outs : List (Int × PyStr)}
    (h : checkOutputs records = .ok outs) :
    outs = records.map (fun r => (r.amount, r.address)) := by
  induction records generalizing outs with
  | nil =>
    simp only [checkOutputs] at h
    cases h
    simp
  | cons r rs ih =>
    simp only [checkOutputs] at h
    split at h
    · cases hrec : checkOutputs rs with
      | error e => rw [hrec] at h; cases h
      | ok outs2 =>
        rw [hrec] at h
        cases h
        simp [ih hrec]
    · cases h

/-- Inversion of a successful build: the inputs are the given UTXOs, the fee
is the given fee, and the outputs are the recipient pairs followed by a
change output exactly when the change is positive. -/
theorem buildTx_ok_inv {wa : PyStr} {utxos : List Utxo} {records : List Recipient}
    {fee : Int} {d : DraftTx} (h : buildTx wa utxos records fee = .ok d) :
    d.inputs = utxos ∧ d.fee = fee ∧
    d.outputs =
      (if 0 < (utxos.map Utxo.value).sum - (records.map Recipient.amount).sum - fee then
        records.map (fun r => (r.amount, r.address)) ++
          [((utxos.map Utxo.value).sum - (records.map Recipient.amount).sum - fee, wa)]
      else records.map (fun r => (r.amount, r.address))) := by
  simp only [buildTx] at h
  split at h
  · cases h
  · cases hco : checkOutputs records with
    | error e => rw [hco] at h; cases h
    | ok outs =>
      rw [hco] at h
      cases h
      have houts := checkOutputs_eq_map hco
      subst houts
      refine ⟨rfl, rfl, ?_⟩
      split <;> simp

/-! ## Claims -/

/-- C1 (code bug): with one 1000-satoshi input, a single 2000-satoshi
recipient and fee 100, the total input (1000) is strictly below total output
plus fee (2100), yet `buildTx` still returns a draft (with no change output):
the source has no `change < 0` branch and never raises an insufficient-funds
error, contrary to the claimed behavior. -/
theorem build_returns_draft_when_underfunded :
    (([(⟨['t'], 0, 1000⟩ : Utxo)].map Utxo.value).sum <
      ([(⟨bc1q, 2000⟩ : Recipient)].map Recipient.amount).sum + 100) ∧
    buildTx bc1q [⟨['t'], 0, 1000⟩] [⟨bc1q, 2000⟩] 100 =
      .ok ⟨[⟨['t'], 0, 1000⟩], [(2000, bc1q)], 100⟩ := by
  decide

/-- C2 counterexample: the same underfunded build succeeds, and the sum of
its input values (1000) differs from the sum of its output values plus its
fee (2000 + 100), so conservation fails for this successful build. -/
theorem build_conservation_counterexample :
    buildTx bc1q [⟨['t'], 0, 1000⟩] [⟨bc1q, 2000⟩] 100 =
      .ok ⟨[⟨['t'], 0, 1000⟩], [(2000, bc1q)], 100⟩ ∧
    ¬ ((DraftTx.inputs ⟨[⟨['t'], 0, 1000⟩], [(2000, bc1q)], 100⟩ |>.map Utxo.value).sum =
        (DraftTx.outputs ⟨[⟨['t'], 0, 1000⟩], [(2000, bc1q)], 100⟩ |>.map Prod.fst).sum +
        DraftTx.fee ⟨[⟨['t'], 0, 1000⟩], [(2000, bc1q)], 100⟩) := by
  decide

/-- C2 (amended): for every successful build whose total input covers total
output plus fee, the sum of the input values equals the sum of the output
values (including the change output when present) plus the fee, exactly, in
integer satoshis. -/
theorem build_conservation (wa : PyStr) (utxos : List Utxo) (records : List Recipient)
    (fee : Int) (d : DraftTx) (hok : buildTx wa utxos records fee = .ok d)
    (hcover : (records.map Recipient.amount).sum + fee ≤ (utxos.map Utxo.value).sum) :
    (d.inputs.map Utxo.value).sum = (d.outputs.map Prod.fst).sum + d.fee := by
  obtain ⟨hin, hfee, hout⟩ := buildTx_ok_inv hok
  rw [hin, hfee, hout]
  have hmap : ∀ rs : List Recipient,
      ((rs.map (fun r => (r.amount, r.address))).map Prod.fst).sum =
        (rs.map Recipient.amount).sum := by
    intro rs
    rw [List.map_map]
    rfl
  split
  · rename_i hpos
    simp only [List.map_append, List.sum_append, hmap]
    simp
    ring
  · rename_i hnot
    rw [hmap]
    omega

/-- C2 witness: a concrete covered build (input 1000, recipient 546, fee 100,
change 354) on which the conservation theorem applies. -/
theorem build_conservation_witness :
    ((DraftTx.inputs ⟨[⟨['t'], 0, 1000⟩], [(546, bc1q), (354, bc1q)], 100⟩).map Utxo.value).sum =
      ((DraftTx.outputs ⟨[⟨['t'], 0, 1000⟩], [(546, bc1q), (354, bc1q)], 100⟩).map Prod.fst).sum +
      DraftTx.fee ⟨[⟨['t'], 0, 1000⟩], [(546, bc1q), (354, bc1q)], 100⟩ :=
  build_conservation bc1q [⟨['t'], 0, 1000⟩] [⟨bc1q, 546⟩] 100
    ⟨[⟨['t'], 0, 1000⟩], [(546, bc1q), (354, bc1q)], 100⟩ (by decide) (by decide)

/-- C4: in every successful build, when the change (total input minus total
output minus fee) is strictly positive a change output of exactly that value
paying the funding address is appended after all recipient outputs — with no
dust check on its value — and when the change is zero no change output is
added. -/
theorem build_change_output_rule (wa : PyStr) (utxos : List Utxo)
    (records : List Recipient) (fee : Int) (d : DraftTx)
    (hok : buildTx wa utxos records fee = .ok d) :
    (0 < (utxos.map Utxo.value).sum - (records.map Recipient.amount).sum - fee →
      d.outputs = records.map (fun r => (r.amount, r.address)) ++
        [((utxos.map Utxo.value).sum - (records.map Recipient.amount).sum - fee, wa)]) ∧
    ((utxos.map Utxo.value).sum - (records.map Recipient.amount).sum - fee = 0 →
      d.outputs = records.map (fun r => (r.amount, r.address))) := by
  obtain ⟨_, _, hout⟩ := buildTx_ok_inv hok
  constructor
  · intro hpos
    rw [hout, if_pos hpos]
  · intro hzero
    rw [hout, if_neg (by omega)]

/-- C4 witness: a build with change exactly 1 satoshi (1647 − 546 − 1100)
still appends the 1-satoshi change output to the funding address, after the
recipient output. -/
theorem build_change_output_rule_witness :
    DraftTx.outputs ⟨[⟨['t'], 0, 1647⟩], [(546, bc1q), (1, bc1q)], 1100⟩ =
      [(⟨bc1q, 546⟩ : Recipient)].map (fun r => (r.amount, r.address)) ++
        [(([(⟨['t'], 0, 1647⟩ : Utxo)].map Utxo.value).sum -
          ([(⟨bc1q, 546⟩ : Recipient)].map Recipient.amount).sum - 1100, bc1q)] :=
  (build_change_output_rule bc1q [⟨['t'], 0, 1647⟩] [⟨bc1q, 546⟩] 1100
    ⟨[⟨['t'], 0, 1647⟩], [(546, bc1q), (1, bc1q)], 1100⟩ (by decide)).1 (by decide)

/-- C5: row validation succeeds exactly when every record's address starts
with `bc1q` and every amount is at least 546 satoshis (hence positive); any
single violating record fails the whole batch. In particular an amount of
exactly 546 is accepted and 545 is rejected. -/
theorem validate_recipients_ok_iff :
    (∀ (idx : Nat) (records : List Recipient),
      validateRows idx records = .ok () ↔
        ∀ r ∈ records, pyStartsWith r.address bc1q = true ∧ 546 ≤ r.amount) ∧
    read_excel_data [⟨bc1q, 546⟩] = .ok () ∧
    ¬ read_excel_data [⟨bc1q, 545⟩] = .ok () := by
  refine ⟨?_, by decide, by decide⟩
  intro idx records
  induction records generalizing idx with
  | nil => simp [validateRows]
  | cons r rs ih =>
    by_cases ha : pyStartsWith r.address bc1q = true
    · by_cases h1 : r.amount ≤ 0
      · have hlt : ¬ (546 : Int) ≤ r.amount := by omega
        simp [validateRows, ha, h1, hlt]
      · by_cases h2 : r.amount < 546
        · have hlt : ¬ (546 : Int) ≤ r.amount := by omega
          simp [validateRows, ha, h1, h2, hlt]
        · have hge : (546 : Int) ≤ r.amount := by omega
          simp [validateRows, ha, h1, h2, hge, ih]
    · simp [validateRows, ha]

/-- C8: the UTXO filter keeps exactly the provider entries whose value is at
least the configured minimum — the kept list is a sublist (provider order,
no duplication) of the provider list, and an entry is kept iff it occurs
there with value at or above the threshold. -/
theorem filterUtxos_spec (utxos : List Utxo) (minUtxo : Int) :
    List.Sublist (filterUtxos utxos minUtxo) utxos ∧
    ∀ u : Utxo, u ∈ filterUtxos utxos minUtxo ↔ (u ∈ utxos ∧ minUtxo ≤ u.value) := by
  refine ⟨List.filter_sublist utxos, ?_⟩
  intro u
  simp [filterUtxos]

/-- C6: when signature verification fails (`t.verify()` returns false), no
broadcast request ever appears in the network trace — whatever the other
inputs — and whenever the pipeline actually reaches verification (wallet
address well-formed, build successful) the run terminates with the
verification-failure error. -/
theorem verify_fail_blocks_broadcast (wa : PyStr) (providerUtxos : List Utxo)
    (minUtxo : Int) (records : List Recipient) (fee : Int)
    (txHex confirmAnswer : PyStr) (resp : HttpResp) :
    (∀ h : PyStr, NetAction.broadcast h ∉
      (send_batch_transaction wa providerUtxos minUtxo records fee false
        txHex confirmAnswer resp).2) ∧
    (pyStartsWith wa bc1q = true →
      ∀ d : DraftTx,
        buildTx wa (filterUtxos providerUtxos minUtxo) records fee = .ok d →
        (send_batch_transaction wa providerUtxos minUtxo records fee false
          txHex confirmAnswer resp).1 = .error .verificationFailed) := by
  constructor
  · intro h
    by_cases hwa : pyStartsWith wa bc1q = true
    · cases hb : buildTx wa (filterUtxos providerUtxos minUtxo) records fee with
      | error e => simp [send_batch_transaction, hwa, hb]
      | ok d => simp [send_batch_transaction, hwa, hb]
    · simp [send_batch_transaction, hwa]
  · intro hwa d hb
    simp [send_batch_transaction, hwa, hb]

/-- C6 witness: a concrete run (one 5000-sat UTXO, one 546-sat recipient, fee
100, answer `Y`, provider would accept) with failed verification ends in the
verification error. -/
theorem verify_fail_blocks_broadcast_witness :
    (send_batch_transaction bc1q [⟨['t'], 0, 5000⟩] 1000 [⟨bc1q, 546⟩] 100 false
      ['0', '1'] ['Y'] ⟨true, ['i', 'd']⟩).1 = .error .verificationFailed :=
  (verify_fail_blocks_broadcast bc1q [⟨['t'], 0, 5000⟩] 1000 [⟨bc1q, 546⟩] 100
      ['0', '1'] ['Y'] ⟨true, ['i', 'd']⟩).2 (by decide)
    ⟨[⟨['t'], 0, 5000⟩], [(546, bc1q), (4354, bc1q)], 100⟩ (by decide)

/-- C7: when the filtered UTXO list is empty, the pipeline fails with the
no-spendable-funds error and its network trace contains no broadcast call. -/
theorem no_spendable_funds_before_broadcast (wa : PyStr) (providerUtxos : List Utxo)
    (minUtxo : Int) (records : List Recipient) (fee : Int) (verifyOk : Bool)
    (txHex confirmAnswer : PyStr) (resp : HttpResp)
    (hwa : pyStartsWith wa bc1q = true)
    (hemp : filterUtxos providerUtxos minUtxo = []) :
    (send_batch_transaction wa providerUtxos minUtxo records fee verifyOk
      txHex confirmAnswer resp).1 = .error .noSpendableFunds ∧
    ∀ h : PyStr, NetAction.broadcast h ∉
      (send_batch_transaction wa providerUtxos minUtxo records fee verifyOk
        txHex confirmAnswer resp).2 := by
  have hb : buildTx wa (filterUtxos providerUtxos minUtxo) records fee =
      .error .noSpendableFunds := by
    rw [hemp]
    rfl
  constructor
  · simp [send_batch_transaction, hwa, hb]
  · intro h
    simp [send_batch_transaction, hwa, hb]

/-- C7 witness: a provider list whose single 5-sat entry falls below the
1000-sat threshold makes the run fail with the no-spendable-funds error. -/
theorem no_spendable_funds_before_broadcast_witness :
    (send_batch_transaction bc1q [⟨['t'], 0, 5⟩] 1000 [] 0 true [] []
      ⟨true, []⟩).1 = .error .noSpendableFunds :=
  (no_spendable_funds_before_broadcast bc1q [⟨['t'], 0, 5⟩] 1000 [] 0 true [] []
    ⟨true, []⟩ (by decide) (by decide)).1

/-- C10: a broadcast call appears in the network trace only when the
uppercased confirmation answer is `Y`; and once a transaction is built and
verification succeeded, any other answer makes the pipeline return `None`
with no broadcast call in its trace. -/
theorem broadcast_requires_confirmation (wa : PyStr) (providerUtxos : List Utxo)
    (minUtxo : Int) (records : List Recipient) (fee : Int) (verifyOk : Bool)
    (txHex confirmAnswer : PyStr) (resp : HttpResp) :
    (∀ h : PyStr, NetAction.broadcast h ∈
        (send_batch_transaction wa providerUtxos minUtxo records fee verifyOk
          txHex confirmAnswer resp).2 →
      pyUpper confirmAnswer = ['Y']) ∧
    (pyStartsWith wa bc1q = true →
      ∀ d : DraftTx,
        buildTx wa (filterUtxos providerUtxos minUtxo) records fee = .ok d →
        pyUpper confirmAnswer ≠ ['Y'] →
        (send_batch_transaction wa providerUtxos minUtxo records fee true
          txHex confirmAnswer resp).1 = .ok none ∧
        ∀ h : PyStr, NetAction.broadcast h ∉
          (send_batch_transaction wa providerUtxos minUtxo records fee true
            txHex confirmAnswer resp).2) := by
  constructor
  · intro h hmem
    by_cases hwa : pyStartsWith wa bc1q = true
    · cases hb : buildTx wa (filterUtxos providerUtxos minUtxo) records fee with
      | error e => simp [send_batch_transaction, hwa, hb] at hmem
      | ok d =>
        cases verifyOk with
        | false => simp [send_batch_transaction, hwa, hb] at hmem
        | true =>
          by_cases hy : pyUpper confirmAnswer = ['Y']
          · exact hy
          · simp [send_batch_transaction, hwa, hb, hy] at hmem
    · simp [send_batch_transaction, hwa] at hmem
  · intro hwa d hb hy
    constructor
    · simp [send_batch_transaction, hwa, hb, hy]
    · intro h
      simp [send_batch_transaction, hwa, hb, hy]

/-- C10 witness: a concrete verified run answered `n` returns `None` (no
transaction id). -/
theorem broadcast_requires_confirmation_witness :
    (send_batch_transaction bc1q [⟨['t'], 0, 5000⟩] 1000 [⟨bc1q, 546⟩] 100 true
      ['0', '1'] ['n'] ⟨true, ['i', 'd']⟩).1 = .ok none :=
  ((broadcast_requires_confirmation bc1q [⟨['t'], 0, 5000⟩] 1000 [⟨bc1q, 546⟩] 100 true
      ['0', '1'] ['n'] ⟨true, ['i', 'd']⟩).2 (by decide)
    ⟨[⟨['t'], 0, 5000⟩], [(546, bc1q), (4354, bc1q)], 100⟩ (by decide) (by decide)).1

/-- C9: the WIF pre-check of `create_wallet_from_wif` accepts a nonempty
secret exactly when its first character is `K`, `L` or `5`; with any other
first character the function fails with the invalid-format error without
consulting the decoding oracle (the result is the same for every oracle);
and with an accepted first character it never fails with that error,
whatever the later decoding does. -/
theorem wif_precheck_gate (decode decode2 : PyStr → Option PyStr) (c : Char) (cs : PyStr) :
    (wifPrecheck (c :: cs) = true ↔ (c = 'K' ∨ c = 'L' ∨ c = '5')) ∧
    (¬(c = 'K' ∨ c = 'L' ∨ c = '5') →
      create_wallet_from_wif decode (c :: cs) = .error .invalidWifFormat ∧
      create_wallet_from_wif decode (c :: cs) = create_wallet_from_wif decode2 (c :: cs)) ∧
    ((c = 'K' ∨ c = 'L' ∨ c = '5') →
      create_wallet_from_wif decode (c :: cs) ≠ .error .invalidWifFormat) := by
  have hk : wifPrecheck (c :: cs) = true ↔ (c = 'K' ∨ c = 'L' ∨ c = '5') := by
    simp only [wifPrecheck, pyStartsWith, List.isPrefixOf, Bool.and_true,
      Bool.or_eq_true, beq_iff_eq]
    constructor
    · rintro ((h | h) | h)
      · exact Or.inl h.symm
      · exact Or.inr (Or.inl h.symm)
      · exact Or.inr (Or.inr h.symm)
    · rintro (h | h | h)
      · exact Or.inl (Or.inl h.symm)
      · exact Or.inl (Or.inr h.symm)
      · exact Or.inr h.symm
  refine ⟨hk, ?_, ?_⟩
  · intro h
    have hf : wifPrecheck (c :: cs) = false := by
      rcases Bool.eq_false_or_eq_true (wifPrecheck (c :: cs)) with ht | hf
      · exact absurd (hk.mp ht) h
      · exact hf
    constructor
    · simp [create_wallet_from_wif, hf]
    · simp [create_wallet_from_wif, hf]
  · intro h
    have ht : wifPrecheck (c :: cs) = true := hk.mpr h
    simp only [create_wallet_from_wif, ht, if_true]
    split
    · simp
    · split <;> simp

/-- C9 witness: the secret `"X"` (first character not `K`/`L`/`5`) is
rejected with the invalid-format error even under an oracle that decodes
nothing. -/
theorem wif_precheck_gate_witness :
    create_wallet_from_wif (fun _ => none) ['X'] = .error .invalidWifFormat :=
  ((wif_precheck_gate (fun _ => none) (fun _ => some []) 'X' []).2.1 (by decide)).1

end SendBtc
